import Mathlib

/-!
Shallow embedding of the AI news digest bot (`main.py`).

The pipeline is pure apart from the network, the clock, the persisted
dedup file and the crash behaviour of the file system; those enter the
embedding as explicit parameters (per-source fetch outcomes, a `now`
timestamp, an abstract file state).  Timestamps are Unix seconds as `Int`.
Importance scores are embedded as `Int`: every score the code can produce
is a sum of the literals 1.0, 2.0 and 3.0, i.e. a whole number that Python
floats represent exactly, so integer arithmetic is an exact model.
Python string primitives (`str.lower`, `str.strip`, substring `in`,
slicing) are modelled by structurally recursive functions on `List Char`
below, since the embedding must be executable by the kernel.
-/

namespace AINewsBot

/-- Python `str.lower()` (per-character lowercasing). -/
def py_lower (s : String) : String := ⟨s.data.map Char.toLower⟩

/-- Whitespace-stripping on a character list (both ends). -/
def strip_list (l : List Char) : List Char :=
  ((l.dropWhile Char.isWhitespace).reverse.dropWhile Char.isWhitespace).reverse

/-- Python `str.strip()` with no argument: drop leading and trailing
whitespace. -/
def py_strip (s : String) : String := ⟨strip_list s.data⟩

/-- Containment of `needle` as a contiguous segment of `hay`
(an empty needle is contained everywhere), checked at every suffix. -/
def contains_seg : List Char → List Char → Bool
  | needle, [] => needle.isEmpty
  | needle, c :: t => needle.isPrefixOf (c :: t) || contains_seg needle t

/-- Python substring test `needle in hay` on strings. -/
def str_contains_sub (hay needle : String) : Bool := contains_seg needle.data hay.data

/-- NewsItem dataclass (main.py lines 32-41). -/
structure NewsItem where
  title : String
  summary : String
  url : String
  source : String
  published : Int
  category : String
  importance_score : Int
deriving DecidableEq

/-- The fixed `high_value_keywords` list of
`NewsAggregator._calculate_importance_score` (main.py lines 97-100). -/
def high_value_keywords : List String :=
  ["openai", "gpt-4", "claude", "anthropic", "funding", "acquisition",
   "breakthrough", "research", "paper"]

/-- `NewsAggregator._calculate_importance_score` (main.py lines 83-105):
base score 1.0, +2.0 per configured keyword whose lowercasing occurs in the
lowercased title, +3.0 per high-value keyword occurring in the lowercased
title. -/
def calculate_importance_score (title : String) (keywords : List String) : Int :=
  let title_lower := py_lower title
  let score : Int := 0
  let score := score + 1
  let score := keywords.foldl
    (fun s keyword => if str_contains_sub title_lower (py_lower keyword) then s + 2 else s)
    score
  let score := high_value_keywords.foldl
    (fun s keyword => if str_contains_sub title_lower keyword then s + 3 else s)
    score
  score

/-- Folding a conditional bonus over a list adds the bonus once per
element satisfying the predicate. -/
theorem foldl_if_add (c : Int) (p : String → Bool) (l : List String) :
    ∀ init : Int,
      l.foldl (fun s k => if p k then s + c else s) init = init + c * l.countP p := by
  induction l with
  | nil => intro init; simp
  | cons k ks ih =>
    intro init
    by_cases hp : p k
    · simp only [List.foldl_cons, hp, if_true, List.countP_cons, ih]
      push_cast
      ring
    · simp only [List.foldl_cons, hp, if_false, List.countP_cons, ih]
      push_cast
      simp [hp]

/-- Closed form of the scoring function, shared by the claims about it. -/
theorem calculate_importance_score_eq (title : String) (keywords : List String) :
    calculate_importance_score title keywords
      = 1 + 2 * (keywords.countP
            (fun k => str_contains_sub (py_lower title) (py_lower k)) : Int)
        + 3 * (high_value_keywords.countP
            (fun k => str_contains_sub (py_lower title) k) : Int) := by
  simp only [calculate_importance_score]
  rw [foldl_if_add 2 (fun k => str_contains_sub (py_lower title) (py_lower k)),
    foldl_if_add 3 (fun k => str_contains_sub (py_lower title) k)]
  ring

/-- C4: the scoring function returns exactly 1.0, plus 2.0 for each source
keyword that is a case-insensitive substring of the title, plus 3.0 for
each term of the fixed high-value list that is a substring of the
lower-cased title; the bonuses are independent and additive with no cap. -/
theorem score_formula (title : String) (keywords : List String) :
    calculate_importance_score title keywords
      = 1 + 2 * (keywords.countP
            (fun k => str_contains_sub (py_lower title) (py_lower k)) : Int)
        + 3 * (high_value_keywords.countP
            (fun k => str_contains_sub (py_lower title) k) : Int) :=
  calculate_importance_score_eq title keywords

/-- C10: for every title and keyword list the score is at least 1.0, so
every constructed NewsItem has importance_score at least 1.0. -/
theorem score_at_least_one (title : String) (keywords : List String) :
    1 ≤ calculate_importance_score title keywords := by
  rw [calculate_importance_score_eq]
  have h1 : (0 : Int) ≤ (keywords.countP
      (fun k => str_contains_sub (py_lower title) (py_lower k)) : Int) :=
    Int.natCast_nonneg _
  have h2 : (0 : Int) ≤ (high_value_keywords.countP
      (fun k => str_contains_sub (py_lower title) k) : Int) :=
    Int.natCast_nonneg _
  linarith

/-- Insertion of one item into a list, placing it before the first element
whose score it reaches.  An element arriving later is inserted after every
earlier element of equal score, which is exactly the stable behaviour of
`all_news.sort(key=lambda x: x.importance_score, reverse=True)`
(main.py line 219): Python `list.sort` is stable also under `reverse=True`. -/
def sort_insert (x : NewsItem) : List NewsItem → List NewsItem
  | [] => [x]
  | y :: ys =>
    if y.importance_score ≤ x.importance_score then x :: y :: ys
    else y :: sort_insert x ys

/-- Stable sort of the merged news list by `importance_score` descending
(main.py line 219).  A stable sort by one key is extensionally unique, so
this insertion sort is an exact model of the CPython stable sort. -/
def sort_by_score_desc : List NewsItem → List NewsItem
  | [] => []
  | x :: xs => sort_insert x (sort_by_score_desc xs)

theorem sort_insert_perm (x : NewsItem) (l : List NewsItem) :
    (sort_insert x l).Perm (x :: l) := by
  induction l with
  | nil => exact List.Perm.refl _
  | cons y ys ih =>
    by_cases h : y.importance_score ≤ x.importance_score
    · simp [sort_insert, h]
    · simp only [sort_insert, h, if_false]
      exact (ih.cons y).trans (List.Perm.swap x y ys)

theorem sort_by_score_desc_perm (l : List NewsItem) :
    (sort_by_score_desc l).Perm l := by
  induction l with
  | nil => exact List.Perm.refl _
  | cons x xs ih =>
    exact (sort_insert_perm x (sort_by_score_desc xs)).trans (ih.cons x)

theorem mem_sort_insert {z x : NewsItem} {l : List NewsItem}
    (h : z ∈ sort_insert x l) : z = x ∨ z ∈ l := by
  induction l with
  | nil => simpa [sort_insert] using h
  | cons y ys ih =>
    by_cases hc : y.importance_score ≤ x.importance_score
    · simp only [sort_insert, hc, if_true, List.mem_cons] at h
      rcases h with h | h | h
      · exact Or.inl h
      · exact Or.inr (by simp [h])
      · exact Or.inr (by simp [h])
    · simp only [sort_insert, hc, if_false, List.mem_cons] at h
      rcases h with h | h
      · exact Or.inr (by simp [h])
      · rcases ih h with h | h
        · exact Or.inl h
        · exact Or.inr (by simp [h])

theorem pairwise_sort_insert {x : NewsItem} {l : List NewsItem}
    (h : l.Pairwise (fun a b => b.importance_score ≤ a.importance_score)) :
    (sort_insert x l).Pairwise (fun a b => b.importance_score ≤ a.importance_score) := by
  induction l with
  | nil => simp [sort_insert]
  | cons y ys ih =>
    rcases List.pairwise_cons.mp h with ⟨hy, hys⟩
    by_cases hc : y.importance_score ≤ x.importance_score
    · simp only [sort_insert, hc, if_true]
      refine List.pairwise_cons.mpr ⟨?_, h⟩
      intro z hz
      rcases List.mem_cons.mp hz with hz | hz
      · simpa [hz] using hc
      · exact le_trans (hy z hz) hc
    · simp only [sort_insert, hc, if_false]
      refine List.pairwise_cons.mpr ⟨?_, ih hys⟩
      intro z hz
      rcases mem_sort_insert hz with hz | hz
      · subst hz
        exact le_of_lt (lt_of_not_le hc)
      · exact hy z hz

theorem filter_sort_insert_eq {x : NewsItem} {s : Int}
    (hx : x.importance_score = s) (l : List NewsItem) :
    (sort_insert x l).filter (fun z => decide (z.importance_score = s))
      = x :: l.filter (fun z => decide (z.importance_score = s)) := by
  induction l with
  | nil => simp [sort_insert, hx]
  | cons y ys ih =>
    by_cases hc : y.importance_score ≤ x.importance_score
    · simp only [sort_insert, hc, if_true]
      simp [List.filter_cons, hx]
    · have hys : ¬ y.importance_score = s := by
        intro hys
        exact hc (by rw [hys, hx])
      simp only [sort_insert, hc, if_false]
      simp [List.filter_cons, hys, ih]

theorem filter_sort_insert_ne {x : NewsItem} {s : Int}
    (hx : ¬ x.importance_score = s) (l : List NewsItem) :
    (sort_insert x l).filter (fun z => decide (z.importance_score = s))
      = l.filter (fun z => decide (z.importance_score = s)) := by
  induction l with
  | nil => simp [sort_insert, hx]
  | cons y ys ih =>
    by_cases hc : y.importance_score ≤ x.importance_score
    · simp [sort_insert, hc, List.filter_cons, hx]
    · simp [sort_insert, hc, List.filter_cons, ih]

theorem filter_sort_by_score_desc (s : Int) (l : List NewsItem) :
    (sort_by_score_desc l).filter (fun z => decide (z.importance_score = s))
      = l.filter (fun z => decide (z.importance_score = s)) := by
  induction l with
  | nil => rfl
  | cons x xs ih =>
    by_cases hx : x.importance_score = s
    · rw [sort_by_score_desc, filter_sort_insert_eq hx, ih]
      simp [List.filter_cons, hx]
    · rw [sort_by_score_desc, filter_sort_insert_ne hx, ih]
      simp [List.filter_cons, hx]

/-- C6: the Ranker/Selector sort (main.py line 219) is deterministic — it
is a pure function, so a fixed input list with fixed scores yields one and
only one output order — and it is exactly a stable descending sort: the
output is a permutation of the input, it is ordered by score descending,
and the items of any fixed score keep their relative order of arrival
(their filtered subsequence is unchanged). -/
theorem ranker_stable_sort (l : List NewsItem) :
    (sort_by_score_desc l).Perm l
    ∧ (sort_by_score_desc l).Pairwise
        (fun a b => b.importance_score ≤ a.importance_score)
    ∧ ∀ s : Int,
        (sort_by_score_desc l).filter (fun z => decide (z.importance_score = s))
          = l.filter (fun z => decide (z.importance_score = s)) := by
  refine ⟨sort_by_score_desc_perm l, ?_, fun s => filter_sort_by_score_desc s l⟩
  induction l with
  | nil => simp [sort_by_score_desc]
  | cons x xs ih => exact pairwise_sort_insert ih

/-- One parsed feed entry as `feedparser` hands it to `_fetch_rss_feed`
(main.py lines 126-157).  Each field the code probes with
`hasattr`/`getattr` is an optional field; a `published_parsed` or
`updated_parsed` that is absent or `None` (falsy) is `none` here, a
present structured date is `some` of its Unix timestamp. -/
structure Entry where
  published_parsed : Option Int
  updated_parsed : Option Int
  title : Option String
  link : Option String
  summary : Option String
  description : Option String
deriving DecidableEq

/-- Date derivation of `_fetch_rss_feed` (main.py lines 128-133):
`published = datetime.now()`, overridden by `published_parsed` when
present and truthy, else by `updated_parsed` when present and truthy. -/
def entry_published (now : Int) (e : Entry) : Int :=
  match e.published_parsed with
  | some t => t
  | none =>
    match e.updated_parsed with
    | some t => t
    | none => now

/-- Scanner state step for the regex `re.sub(r'<[^>]+>', '', text)` of
`_clean_html` (main.py line 189): outside any candidate tag the buffer is
`none`; inside, the buffer holds (reversed) the characters consumed since
the pending unmatched `<`.  The regex removes a `<`, one or more
non-`>` characters (which may include further `<`), and the closing `>`;
a `<` immediately followed by `>` matches nothing and both characters
stay, as does a `<` never followed by `>`. -/
def drop_tags_go : List Char → Option (List Char) → List Char
  | [], none => []
  | [], some buf => buf.reverse
  | c :: t, none =>
    if c = '<' then drop_tags_go t (some [c])
    else c :: drop_tags_go t none
  | c :: t, some buf =>
    if c = '>' then
      if 2 ≤ buf.length then drop_tags_go t none
      else buf.reverse ++ c :: drop_tags_go t none
    else drop_tags_go t (some (c :: buf))

/-- HTML-tag removal `re.sub(r'<[^>]+>', '', text)` (main.py line 189). -/
def drop_tags (l : List Char) : List Char := drop_tags_go l none

/-- Whitespace collapsing `re.sub(r'\s+', ' ', text)` (main.py line 191):
every maximal run of whitespace becomes one space.  `Char.isWhitespace`
models the ASCII core of the `\s` class. -/
def collapse_ws_go : List Char → Bool → List Char
  | [], _ => []
  | c :: t, prev_ws =>
    if c.isWhitespace then
      if prev_ws then collapse_ws_go t true
      else ' ' :: collapse_ws_go t true
    else c :: collapse_ws_go t false

/-- `NewsAggregator._clean_html` (main.py lines 185-192): strip HTML tags,
collapse whitespace runs to single spaces, strip both ends. -/
def clean_html (text : String) : String :=
  py_strip ⟨collapse_ws_go (drop_tags text.data) false⟩

/-- Summary extraction of `_fetch_rss_feed` (main.py lines 154-160):
`entry.summary` with default empty, falling back to `entry.description`
when the summary is falsy and a description attribute exists, then HTML
cleaning. -/
def entry_summary_text (e : Entry) : String :=
  let summary := e.summary.getD ""
  let summary :=
    if summary = "" then
      match e.description with
      | some d => d
      | none => summary
    else summary
  clean_html summary

/-- Summary truncation at NewsItem construction (main.py line 164):
`summary[:200] + "..." if len(summary) > 200 else summary`. -/
def truncate_summary (s : String) : String :=
  if 200 < s.data.length then String.mk (s.data.take 200) ++ "..." else s

/-- The per-entry body of the loop in `_fetch_rss_feed`
(main.py lines 126-172), returning `some` constructed NewsItem or `none`
for a skipped entry.  `url_hash` abstracts `_get_url_hash` (the MD5 hex
digest of the URL, main.py lines 74-76), which the claims use only as a
deterministic function; `sent_urls` is the SeenSet snapshot read by
`_is_duplicate` (main.py lines 78-81). -/
def process_entry (url_hash : String → String) (sent_urls : Finset String)
    (now cutoff : Int) (src_name category : String) (keywords : List String)
    (e : Entry) : Option NewsItem :=
  let published := entry_published now e
  if published < cutoff then none
  else
    let title := py_strip (e.title.getD "")
    let url := py_strip (e.link.getD "")
    if title = "" then none
    else if url = "" then none
    else if url_hash url ∈ sent_urls then none
    else
      let importance_score := calculate_importance_score title keywords
      let summary := entry_summary_text e
      some
        { title := title
          summary := truncate_summary summary
          url := url
          source := src_name
          published := published
          category := category
          importance_score := importance_score }

/-- `NewsAggregator._fetch_rss_feed` (main.py lines 107-183).  `outcome`
is the network-and-parse result: `none` models a transport or parse
failure (the outer `except` returns an empty list, lines 181-183), `some
entries` the parsed feed.  At most the first 50 entries are examined
(line 126) and the cutoff is 24 hours before `now` (line 124). -/
def fetch_rss_feed (url_hash : String → String) (sent_urls : Finset String)
    (now : Int) (src_name category : String) (keywords : List String)
    (outcome : Option (List Entry)) : List NewsItem :=
  match outcome with
  | none => []
  | some entries =>
    let cutoff := now - 86400
    (entries.take 50).filterMap
      (process_entry url_hash sent_urls now cutoff src_name category keywords)

/-- One submitted fetch task of `fetch_all_news` (main.py lines 199-216):
a source dict with the category tag attached (line 205) plus the outcome
of its network fetch.  The list order of the jobs models the
`as_completed` arrival order. -/
structure SourceJob where
  name : String
  category : String
  keywords : List String
  outcome : Option (List Entry)

/-- `NewsAggregator.fetch_all_news` (main.py lines 194-222): collect every
per-source result, then sort by importance score descending (line 219). -/
def fetch_all_news (url_hash : String → String) (sent_urls : Finset String)
    (now : Int) (jobs : List SourceJob) : List NewsItem :=
  sort_by_score_desc
    ((jobs.map (fun j =>
      fetch_rss_feed url_hash sent_urls now j.name j.category j.keywords j.outcome)).flatten)

/-- Truncation to the configured maximum, `all_news[:max_news]`
(main.py lines 417-418). -/
def select_news (all_news : List NewsItem) (max_news : Nat) : List NewsItem :=
  all_news.take max_news

/-- Observable state of the `sent_urls.json` file.  `content` is a
committed record (`sent_urls` list as a set plus `last_update`);
`truncated` is the empty file left by `open(path, 'w')` before
`json.dump` has run. -/
inductive FileState where
  | absent
  | truncated
  | content (sent_urls : Finset String) (last_update : Int)
deriving DecidableEq

/-- `NewsAggregator._save_sent_urls` (main.py lines 65-72), final file
content: a full overwrite with the current set and a timestamp. -/
def save_sent_urls (sent_urls : Finset String) (now : Int) : FileState :=
  FileState.content sent_urls now

/-- The cross-run state touched by a run: the in-memory `sent_urls` set
and the persisted file. -/
structure BotState where
  sent_urls : Finset String
  file : FileState
deriving DecidableEq

/-- Result of one run: the boolean returned by `run_daily_job`, the
state after the run, and the selected list handed to the dispatcher
(`none` when no dispatch was attempted). -/
structure RunOutcome where
  success : Bool
  state : BotState
  dispatched : Option (List NewsItem)
deriving DecidableEq

/-- `AINewsBot.run_daily_job` (main.py lines 404-447).  `ai_summary`
models `AISummarizer.generate_summary` applied per selected item
(lines 423-425), `dispatch_ok` the boolean returned by
`DingTalkNotifier.send_daily_news` (line 429).  On dispatch success the
hashes of the selected URLs are added to `sent_urls` and the file is
rewritten (lines 431-437); on failure or an empty fetch nothing is
mutated (lines 412-414, 441-443). -/
def run_daily_job (url_hash : String → String) (now : Int)
    (jobs : List SourceJob) (max_news : Nat) (ai_summary : NewsItem → String)
    (dispatch_ok : Bool) (st : BotState) : RunOutcome :=
  let all_news := fetch_all_news url_hash st.sent_urls now jobs
  if all_news.isEmpty then
    { success := false, state := st, dispatched := none }
  else
    let selected_news := select_news all_news max_news
    let selected_news := selected_news.map (fun n => { n with summary := ai_summary n })
    if dispatch_ok then
      let sent := selected_news.foldl (fun s n => insert (url_hash n.url) s) st.sent_urls
      { success := true
        state := { sent_urls := sent, file := save_sent_urls sent now }
        dispatched := some selected_news }
    else
      { success := false, state := st, dispatched := some selected_news }

/-- C8: publishedAt is the entry's published date if present, else its
updated date if present, else the current time; and every entry whose
derived publishedAt is strictly before the cutoff `now - 24h` (86400
seconds) is discarded by the per-entry loop. -/
theorem published_fallback_and_cutoff (url_hash : String → String)
    (sent_urls : Finset String) (now : Int) (src_name category : String)
    (keywords : List String) :
    (∀ e t, e.published_parsed = some t → entry_published now e = t)
    ∧ (∀ e t, e.published_parsed = none → e.updated_parsed = some t →
        entry_published now e = t)
    ∧ (∀ e, e.published_parsed = none → e.updated_parsed = none →
        entry_published now e = now)
    ∧ (∀ e, entry_published now e < now - 86400 →
        process_entry url_hash sent_urls now (now - 86400) src_name category
          keywords e = none) := by
  refine ⟨?_, ?_, ?_, ?_⟩
  · intro e t h
    simp [entry_published, h]
  · intro e t h1 h2
    simp [entry_published, h1, h2]
  · intro e h1 h2
    simp [entry_published, h1, h2]
  · intro e h
    simp only [process_entry]
    rw [if_pos h]

/-- Witness for C8 on concrete entries: both fallbacks, the undated
default, and the discarding of a stale entry. -/
theorem published_fallback_and_cutoff_witness :
    entry_published 100 ⟨some 5, some 7, none, none, none, none⟩ = 5
    ∧ entry_published 100 ⟨none, some 7, none, none, none, none⟩ = 7
    ∧ entry_published 100 ⟨none, none, none, none, none, none⟩ = 100
    ∧ process_entry (fun s => s) ∅ 200000 (200000 - 86400) ("S") ("c") []
        ⟨some 5, none, some ("T"), some ("u"), none, none⟩ = none := by
  refine ⟨?_, ?_, ?_, ?_⟩
  · exact (published_fallback_and_cutoff (fun s => s) ∅ 100 ("S") ("c") []).1
      ⟨some 5, some 7, none, none, none, none⟩ 5 rfl
  · exact (published_fallback_and_cutoff (fun s => s) ∅ 100 ("S") ("c") []).2.1
      ⟨none, some 7, none, none, none, none⟩ 7 rfl rfl
  · exact (published_fallback_and_cutoff (fun s => s) ∅ 100 ("S") ("c") []).2.2.1
      ⟨none, none, none, none, none, none⟩ rfl rfl
  · exact (published_fallback_and_cutoff (fun s => s) ∅ 200000 ("S") ("c") []).2.2.2
      ⟨some 5, none, some ("T"), some ("u"), none, none⟩ (by decide)

/-- An entry accepted by the per-entry loop has a fingerprint outside the
SeenSet snapshot (the dedup check of main.py line 146). -/
theorem process_entry_not_seen {url_hash : String → String}
    {sent_urls : Finset String} {now cutoff : Int} {src_name category : String}
    {keywords : List String} {e : Entry} {n : NewsItem}
    (h : process_entry url_hash sent_urls now cutoff src_name category
      keywords e = some n) :
    url_hash n.url ∉ sent_urls := by
  simp only [process_entry] at h
  split_ifs at h with h1 h2 h3 h4
  simp at h
  subst h
  exact h4

/-- A NewsItem produced by one source fetch has a fingerprint outside the
SeenSet snapshot. -/
theorem fetch_rss_feed_not_seen {url_hash : String → String}
    {sent_urls : Finset String} {now : Int} {src_name category : String}
    {keywords : List String} {outcome : Option (List Entry)} {n : NewsItem}
    (h : n ∈ fetch_rss_feed url_hash sent_urls now src_name category keywords
      outcome) :
    url_hash n.url ∉ sent_urls := by
  match outcome with
  | none => simp [fetch_rss_feed] at h
  | some entries =>
    simp only [fetch_rss_feed, List.mem_filterMap] at h
    obtain ⟨e, _, he⟩ := h
    exact process_entry_not_seen he

/-- A NewsItem in the merged, sorted fetch result has a fingerprint
outside the SeenSet snapshot. -/
theorem fetch_all_news_not_seen {url_hash : String → String}
    {sent_urls : Finset String} {now : Int} {jobs : List SourceJob}
    {n : NewsItem} (h : n ∈ fetch_all_news url_hash sent_urls now jobs) :
    url_hash n.url ∉ sent_urls := by
  have h2 := ((sort_by_score_desc_perm _).mem_iff).mp h
  rw [List.mem_flatten] at h2
  obtain ⟨l, hl, hn⟩ := h2
  rw [List.mem_map] at hl
  obtain ⟨j, _, rfl⟩ := hl
  exact fetch_rss_feed_not_seen hn

/-- C1: a URL whose fingerprint is in the SeenSet loaded at run start is
discarded at fetch, so no item with that URL appears in the selected list
handed to the dispatcher. -/
theorem seen_url_never_in_run_result (url_hash : String → String) (now : Int)
    (jobs : List SourceJob) (max_news : Nat) (ai_summary : NewsItem → String)
    (dispatch_ok : Bool) (st : BotState) (url : String)
    (hseen : url_hash url ∈ st.sent_urls) (sel : List NewsItem)
    (hdisp : (run_daily_job url_hash now jobs max_news ai_summary dispatch_ok
      st).dispatched = some sel)
    (item : NewsItem) (hitem : item ∈ sel) : item.url ≠ url := by
  intro heq
  simp only [run_daily_job] at hdisp
  by_cases hempty : (fetch_all_news url_hash st.sent_urls now jobs).isEmpty
  · rw [if_pos hempty] at hdisp
    exact absurd hdisp (by simp)
  · rw [if_neg hempty] at hdisp
    have hsel : sel
        = (select_news (fetch_all_news url_hash st.sent_urls now jobs)
            max_news).map (fun n => { n with summary := ai_summary n }) := by
      cases dispatch_ok
      · simpa using hdisp.symm
      · simpa using hdisp.symm
    rw [hsel, List.mem_map] at hitem
    obtain ⟨n, hn, hni⟩ := hitem
    have hmem : n ∈ fetch_all_news url_hash st.sent_urls now jobs :=
      (List.take_sublist _ _).subset hn
    have hnot := fetch_all_news_not_seen hmem
    have hurl : n.url = url := by
      rw [← heq, ← hni]
    rw [hurl] at hnot
    exact hnot hseen

/-- Witness for C1: one source returns entries for the already-seen URL
"u" and the fresh URL "v"; the run result contains only the "v" item,
whose URL differs from "u". -/
theorem seen_url_never_in_run_result_witness :
    ({ title := "B", summary := "", url := "v", source := "S",
       published := 100, category := "general",
       importance_score := 1 } : NewsItem).url ≠ "u" :=
  seen_url_never_in_run_result (fun s => s) 100
    [⟨"S", "general", [],
      some [⟨some 100, none, some ("A"), some ("u"), none, none⟩,
            ⟨some 100, none, some ("B"), some ("v"), none, none⟩]⟩]
    10 (fun n => n.summary) false ⟨{"u"}, FileState.absent⟩ "u"
    (by decide)
    [{ title := "B", summary := "", url := "v", source := "S",
       published := 100, category := "general", importance_score := 1 }]
    (by decide)
    { title := "B", summary := "", url := "v", source := "S",
      published := 100, category := "general", importance_score := 1 }
    (by decide)

/-- C5: the selection step keeps exactly `min mergedCount maxNews` items,
both as a property of the truncation function itself and of the list the
run hands to the dispatcher (which exists exactly when the merge was
non-empty). -/
theorem selected_news_length (url_hash : String → String) (now : Int)
    (jobs : List SourceJob) (max_news : Nat) (ai_summary : NewsItem → String)
    (dispatch_ok : Bool) (st : BotState) :
    (∀ all_news : List NewsItem,
        (select_news all_news max_news).length = min all_news.length max_news)
    ∧ ((run_daily_job url_hash now jobs max_news ai_summary dispatch_ok
          st).dispatched.map List.length
        = if (fetch_all_news url_hash st.sent_urls now jobs).isEmpty then none
          else some (min (fetch_all_news url_hash st.sent_urls now jobs).length
            max_news)) := by
  constructor
  · intro all_news
    simp [select_news, List.length_take, Nat.min_comm]
  · simp only [run_daily_job]
    by_cases hempty : (fetch_all_news url_hash st.sent_urls now jobs).isEmpty
    · simp [hempty]
    · cases dispatch_ok
      · simp [hempty, select_news, List.length_take, Nat.min_comm]
      · simp [hempty, select_news, List.length_take, Nat.min_comm]

/-- C2: when dispatch reports failure the run mutates nothing: the
in-memory sent_urls set and the persisted file after the run equal their
values before the run. -/
theorem dispatch_failure_preserves_state (url_hash : String → String)
    (now : Int) (jobs : List SourceJob) (max_news : Nat)
    (ai_summary : NewsItem → String) (st : BotState) :
    (run_daily_job url_hash now jobs max_news ai_summary false st).state = st := by
  simp only [run_daily_job]
  by_cases hempty : (fetch_all_news url_hash st.sent_urls now jobs).isEmpty
  · simp [hempty]
  · simp [hempty]

/-- Classification of what reading `sent_urls.json` can encounter,
matching the exception classes of `_load_sent_urls` (main.py lines 56-63):
the file is missing (`FileNotFoundError`), the file exists but cannot be
read (`OSError`, e.g. a permission error), its content is not JSON
(`json.JSONDecodeError`), it is JSON of the wrong shape (the top level is
not a dict, so `data.get` raises `AttributeError`, or `sent_urls` is not
iterable, so `set(...)` raises `TypeError`), or it is the expected record
with a `sent_urls` list (possibly with the key absent, where `data.get`
defaults to the empty list). -/
inductive SentFile where
  | missing
  | unreadable
  | malformedJson
  | wrongShape
  | validMissingKey
  | valid (sent_urls : List String)
deriving DecidableEq

/-- Exceptions `_load_sent_urls` can let escape to its caller. -/
inductive LoadError where
  | ioError
  | jsonError
  | shapeError
deriving DecidableEq

/-- `NewsAggregator._load_sent_urls` (main.py lines 56-63): the body
opens and JSON-decodes the file and builds a set from `data.get
('sent_urls', [])`; the only handler is `except FileNotFoundError`,
which returns the empty set.  Every other failure propagates, modelled
as `Except.error`. -/
def load_sent_urls : SentFile → Except LoadError (Finset String)
  | SentFile.missing => Except.ok ∅
  | SentFile.unreadable => Except.error LoadError.ioError
  | SentFile.malformedJson => Except.error LoadError.jsonError
  | SentFile.wrongShape => Except.error LoadError.shapeError
  | SentFile.validMissingKey => Except.ok ∅
  | SentFile.valid sent_urls => Except.ok sent_urls.toFinset

/-- Counterexample to C3: on malformed content the load does not return
the empty set — the JSON decoding error propagates to the caller, because
the only exception handled is `FileNotFoundError`. -/
theorem load_sent_urls_malformed_raises :
    load_sent_urls SentFile.malformedJson ≠ Except.ok (∅ : Finset String) :=
  fun h => nomatch h

/-- C3 as amended: only the missing-file case is recovered with an empty
set; an unreadable file, malformed JSON and wrong-shaped JSON all
propagate their exception to the caller, while a well-formed record
yields its URL set (an absent `sent_urls` key defaults to empty). -/
theorem load_sent_urls_only_missing_file_recovered :
    load_sent_urls SentFile.missing = Except.ok ∅
    ∧ (load_sent_urls SentFile.unreadable).isOk = false
    ∧ (load_sent_urls SentFile.malformedJson).isOk = false
    ∧ (load_sent_urls SentFile.wrongShape).isOk = false
    ∧ load_sent_urls SentFile.validMissingKey = Except.ok ∅
    ∧ ∀ urls : List String,
        load_sent_urls (SentFile.valid urls) = Except.ok urls.toFinset := by
  exact ⟨rfl, rfl, rfl, rfl, rfl, fun urls => rfl⟩

/-- The file states a reader (or a crash) can observe while
`_save_sent_urls` (main.py lines 65-72) runs, in order: the pre-existing
content, then the empty file left the moment `open(path, 'w')` truncates
the target in place, then the fully written record once `json.dump`
finishes.  There is no temporary file and no rename: the code opens the
target path itself in write mode. -/
def save_sent_urls_crash_states (old : FileState) (sent_urls : Finset String)
    (now : Int) : List FileState :=
  [old, FileState.truncated, save_sent_urls sent_urls now]

/-- An atomic commit, from the perspective of a concurrent reader or a
crash: every observable intermediate state is either the old content or
the new content. -/
def flush_atomic (old : FileState) (sent_urls : Finset String) (now : Int) : Prop :=
  ∀ s ∈ save_sent_urls_crash_states old sent_urls now,
    s = old ∨ s = save_sent_urls sent_urls now

instance (old : FileState) (sent_urls : Finset String) (now : Int) :
    Decidable (flush_atomic old sent_urls now) := by
  unfold flush_atomic
  infer_instance

/-- Counterexample to C7: the in-place write is not atomic.  With prior
content `{"a"}` and new set `{"b"}`, the truncated empty file is an
observable intermediate state that is neither the old nor the new
content. -/
theorem save_sent_urls_not_atomic :
    ¬ flush_atomic (FileState.content {"a"} 0) {"b"} 1 := by
  decide

/-- C7 as amended: `_save_sent_urls` persists the current set as a full
overwrite — the final file content is exactly the new record, whatever
was there before — but the commit is an in-place `open(path, 'w')` plus
`json.dump`, so the truncation window is observable: a crash between
write-start and write-end can leave a half-written (here: empty) file. -/
theorem save_sent_urls_overwrite_with_truncation_window (old : FileState)
    (sent_urls : Finset String) (now : Int) :
    (save_sent_urls_crash_states old sent_urls now).getLast?
      = some (FileState.content sent_urls now)
    ∧ FileState.truncated ∈ save_sent_urls_crash_states old sent_urls now := by
  constructor
  · rfl
  · simp [save_sent_urls_crash_states]

/-- Outcome of the OpenAI chat-completions call made by
`AISummarizer.generate_summary` (main.py lines 253-278): a parsed
response with a non-empty `choices` list and its first message content,
a response without usable choices, or any raised exception (network
error, timeout, non-2xx status). -/
inductive ApiOutcome where
  | ok (content : String)
  | noChoices
  | failure
deriving DecidableEq

/-- `AISummarizer.generate_summary` (main.py lines 234-284).  With no API
key (falsy or the placeholder) the call is skipped; on a usable response
the stripped content is returned; otherwise the fallback
`news_item.summary or "暂无摘要"` is returned — the Python `or` replaces
an empty summary by the placeholder.  Every exception is caught by the
enclosing handler (lines 282-284), so the function is total. -/
def generate_summary (api_key : String) (news_item : NewsItem)
    (api : ApiOutcome) : String :=
  if api_key = "" ∨ api_key = "YOUR_OPENAI_API_KEY" then
    if news_item.summary = "" then "暂无摘要" else news_item.summary
  else
    match api with
    | ApiOutcome.ok content => py_strip content
    | ApiOutcome.noChoices =>
        if news_item.summary = "" then "暂无摘要" else news_item.summary
    | ApiOutcome.failure =>
        if news_item.summary = "" then "暂无摘要" else news_item.summary

/-- Counterexample to C9: on failure with an item whose extracted summary
is empty, the hook returns the placeholder "暂无摘要", not the original
summary unchanged. -/
theorem generate_summary_empty_summary_placeholder :
    generate_summary ""
        { title := "t", summary := "", url := "u", source := "s",
          published := 0, category := "c", importance_score := 1 }
        ApiOutcome.failure
      ≠ ({ title := "t", summary := "", url := "u", source := "s",
           published := 0, category := "c",
           importance_score := 1 } : NewsItem).summary := by
  decide

/-- C9 as amended: the summarization hook is a total function (every
exception path of the code is caught), and on any failure — absent or
placeholder API key, API error, or a response without choices — it
returns the item's original extracted summary when that is non-empty,
and the fixed placeholder "暂无摘要" when the original summary is
empty. -/
theorem generate_summary_failure_fallback (api_key : String)
    (news_item : NewsItem) (api : ApiOutcome)
    (h : api = ApiOutcome.failure ∨ api = ApiOutcome.noChoices
      ∨ api_key = "" ∨ api_key = "YOUR_OPENAI_API_KEY") :
    generate_summary api_key news_item api
      = if news_item.summary = "" then "暂无摘要" else news_item.summary := by
  by_cases hk : api_key = "" ∨ api_key = "YOUR_OPENAI_API_KEY"
  · simp [generate_summary, hk]
  · rcases h with h | h | h | h
    · simp [generate_summary, hk, h]
    · simp [generate_summary, hk, h]
    · exact absurd (Or.inl h) hk
    · exact absurd (Or.inr h) hk

/-- Witness for C9 as amended: a failing API call with a real key falls
back to the non-empty original summary. -/
theorem generate_summary_failure_fallback_witness :
    generate_summary "sk-k"
        { title := "t", summary := "orig", url := "u", source := "s",
          published := 0, category := "c", importance_score := 1 }
        ApiOutcome.failure = "orig" := by
  have h := generate_summary_failure_fallback "sk-k"
    { title := "t", summary := "orig", url := "u", source := "s",
      published := 0, category := "c", importance_score := 1 }
    ApiOutcome.failure (Or.inl rfl)
  simpa using h

end AINewsBot
